import Mathlib

/-!
Verification of the shai-hulud-scanner lockfile engine (src/scanner.go).

Shallow embedding of the Go scanner's pure core: the compromised-package
database loader, the glob/path filter, the four lockfile parsers and the
per-file classification, plus the orchestration loop over parsed files.

Modelling conventions:
* Go maps (`map[string]map[string]bool`, `map[string]string`) are modelled as
  insertion-ordered association lists; Go map iteration order is unspecified,
  and no claim below depends on output order.
* Go strings are byte slices; the embedding works over `List Char`. All inputs
  exercised by the claims are ASCII, where the two coincide.
* `encoding/json.Unmarshal` is external library code; its outcome is modelled
  as `Option JVal` (`none` = unmarshal error, e.g. truncated JSON), and a
  `JVal` tree mirrors the dynamic `map[string]interface{}` values.
* File reading is external; parsers take the file text (or its JSON outcome)
  directly.
-/

namespace SHS

/-- Character class of Go's regexp `\s`, i.e. `[\t\n\f\r ]`
(used in the loader regex `[^@/\s]`). -/
def isRegexSpace (c : Char) : Bool :=
  c == ' ' || c == '\t' || c == '\n' || c == '\x0c' || c == '\r'

/-- Character class of Go's `unicode.IsSpace` as used by `strings.TrimSpace`
(ASCII/Latin-1 portion; the higher Unicode space code points never occur in
the inputs considered here). -/
def isUniSpace (c : Char) : Bool :=
  c == ' ' || c == '\t' || c == '\n' || c == '\x0b' || c == '\x0c' || c == '\r' ||
  c == '\x85' || c == '\xa0'

/-- `listIsPre p l` holds when `p` is a prefix of `l` (Go `strings.HasPrefix`
on the underlying characters). -/
def listIsPre : List Char → List Char → Bool
  | [], _ => true
  | _ :: _, [] => false
  | a :: as, b :: bs => a == b && listIsPre as bs

/-- Go `strings.HasPrefix`. -/
def strStarts (s p : String) : Bool := listIsPre p.data s.data

/-- Go `strings.HasSuffix`. -/
def strEnds (s p : String) : Bool := listIsPre p.data.reverse s.data.reverse

/-- `hasSub hay pat`: does `pat` occur as a contiguous sublist of `hay`?
(Go `strings.Contains` on the underlying characters.) -/
def hasSub : List Char → List Char → Bool
  | [], pat => listIsPre pat []
  | h :: t, pat => listIsPre pat (h :: t) || hasSub t pat

/-- Go `strings.Contains`. -/
def strContains (s sub : String) : Bool := hasSub s.data sub.data

/-- Go `strings.TrimPrefix`. -/
def dropPre (s p : String) : String :=
  if listIsPre p.data s.data then String.mk (s.data.drop p.data.length) else s

/-- Go `strings.TrimSuffix`. -/
def dropSuf (s p : String) : String :=
  if listIsPre p.data.reverse s.data.reverse then
    String.mk (s.data.take (s.data.length - p.data.length))
  else s

/-- Go `strings.TrimSpace` (trim `unicode.IsSpace` characters on both ends). -/
def goTrim (s : String) : String :=
  String.mk (((s.data.dropWhile isUniSpace).reverse.dropWhile isUniSpace).reverse)

/-- Go `strings.Trim s cutset`: trim any character of `cut` from both ends. -/
def goTrimSet (s : String) (cut : List Char) : String :=
  String.mk (((s.data.dropWhile (cut.contains ·)).reverse.dropWhile (cut.contains ·)).reverse)

/-- `splitOnChar c l` splits `l` at every occurrence of `c`
(Go `strings.Split` with a one-character separator: always at least one piece,
empty pieces kept). -/
def splitOnChar (c : Char) : List Char → List (List Char)
  | [] => [[]]
  | x :: xs =>
    let r := splitOnChar c xs
    if x == c then [] :: r
    else
      match r with
      | [] => [[x]]
      | h :: t => (x :: h) :: t

/-- Go `strings.Split(s, "\n")`. -/
def goSplitNL (s : String) : List String :=
  (splitOnChar '\n' s.data).map String.mk

/-- Strip one trailing carriage return (part of `bufio.ScanLines`). -/
def dropCR (l : List Char) : List Char :=
  if l.getLast? = some '\r' then l.dropLast else l

/-- The token sequence produced by a `bufio.Scanner` with `bufio.ScanLines`:
lines split at `'\n'`, each stripped of one trailing `'\r'`; a trailing
newline produces no final empty token, and empty input produces no tokens. -/
def goScanLines (content : String) : List String :=
  if content.data.isEmpty then []
  else
    let ls := splitOnChar '\n' content.data
    let ls := if ls.getLast? = some [] then ls.dropLast else ls
    ls.map (fun l => String.mk (dropCR l))

/-- Index of the last occurrence of `c` (Go `strings.LastIndex` restricted to a
one-character needle; character index, which agrees with Go's byte index on
the ASCII inputs considered). -/
def lastIdxOf (c : Char) : List Char → Option Nat
  | [] => none
  | x :: xs =>
    match lastIdxOf c xs with
    | some i => some (i + 1)
    | none => if x == c then some 0 else none

/-- Split `s` at its last `'@'`: `some (before, after)`, or `none` when `s`
contains no `'@'` (the `strings.LastIndex(s, "@")` idiom used by the pnpm, bun
and yarn extractors). -/
def lastAtSplit (s : String) : Option (String × String) :=
  match lastIdxOf '@' s.data with
  | none => none
  | some i => some (String.mk (s.data.take i), String.mk (s.data.drop (i + 1)))

/-- The scope normalization applied throughout scanner.go: a name containing
`/` that does not already start with `@` gets `@` prepended. -/
def normalizeScoped (name : String) : String :=
  if strContains name "/" && !(strStarts name "@") then "@" ++ name else name

/-! ## CompromisedDatabaseLoader (scanner.go `loadExploitedPackages`,
`loadEmbeddedExploitedPackages`, lines 252-325)

The per-line regex is
`^(@?[^@/\s]+(?:/[^@/\s]+)?)@([0-9]+\.[0-9]+\.[0-9]+(?:\.[0-9]+)?)$`.
Because the name character class excludes `@` and `/` and the version class
excludes everything but digits and forced literal dots, the regex is
deterministic (no backtracking can change the outcome) and is embedded as the
maximal-munch scanner below. -/

/-- The regex character class `[^@/\s]`. -/
def nameChar (c : Char) : Bool := !(c == '@' || c == '/' || isRegexSpace c)

/-- Consume `[0-9]+` greedily: `none` when no leading digit, otherwise the
remainder after the maximal digit run. -/
def digits1 (cs : List Char) : Option (List Char) :=
  if (cs.takeWhile Char.isDigit).isEmpty then none
  else some (cs.dropWhile Char.isDigit)

/-- Consume `\.[0-9]+`. -/
def dotDigits (cs : List Char) : Option (List Char) :=
  match cs with
  | c :: rest => if c == '.' then digits1 rest else none
  | [] => none

/-- The anchored version group `[0-9]+\.[0-9]+\.[0-9]+(?:\.[0-9]+)?$`:
exactly three dotted digit runs, optionally a fourth. -/
def versionChars (cs : List Char) : Bool :=
  match digits1 cs with
  | none => false
  | some r1 =>
    match dotDigits r1 with
    | none => false
    | some r2 =>
      match dotDigits r2 with
      | none => false
      | some r3 =>
        r3.isEmpty ||
          (match dotDigits r3 with
           | none => false
           | some r4 => r4.isEmpty)

/-- The loader regex after its optional leading `@`: a nonempty `[^@/\s]+`
segment, optionally `/` and a second segment, then `@` and the version group,
anchored at the end. `pre` is the already-consumed leading `@` (or `""`).
Each `[^@/\s]+` run is maximal-munch, which is forced: the character after it
must be `/` or `@`, both outside the class, so no backtracking can succeed. -/
def parseCore (cs1 : List Char) (pre : String) : Option (String × String) :=
  let s1 := cs1.takeWhile nameChar
  let cs2 := cs1.dropWhile nameChar
  if s1.isEmpty then none
  else
    match cs2 with
    | [] => none
    | d :: cs3 =>
      if d == '/' then
        let s2 := cs3.takeWhile nameChar
        let cs4 := cs3.dropWhile nameChar
        if s2.isEmpty then none
        else
          match cs4 with
          | [] => none
          | e :: vcs =>
            if e == '@' then
              if versionChars vcs then
                some (pre ++ String.mk s1 ++ "/" ++ String.mk s2, String.mk vcs)
              else none
            else none
      else if d == '@' then
        if versionChars cs3 then some (pre ++ String.mk s1, String.mk cs3) else none
      else none

/-- The full loader line regex: optional `@` (which, when the line starts with
`@`, must be consumed by `@?` since the following character class excludes
`@`), then the name segments and the version group. Returns the two capture
groups (raw name, version). -/
def parseNameVer (cs : List Char) : Option (String × String) :=
  match cs with
  | [] => none
  | c :: rest => if c == '@' then parseCore rest "@" else parseCore (c :: rest) ""

/-- Match one (already trimmed) database line against the loader regex. -/
def parseDbLine (line : String) : Option (String × String) :=
  parseNameVer line.data

/-- The compromised database: name, then the set of known-bad versions
(Go `map[string]map[string]bool`, modelled insertion-ordered). -/
abbrev Db := List (String × List String)

/-- `affected[name][version] = true` (creating the inner set if absent). -/
def dbInsert (db : Db) (name ver : String) : Db :=
  match db with
  | [] => [(name, [ver])]
  | (n, vs) :: rest =>
    if n = name then (n, if vs.contains ver then vs else vs ++ [ver]) :: rest
    else (n, vs) :: dbInsert rest name ver

/-- Database key lookup (Go map indexing with comma-ok). -/
def dbLookup (db : Db) (name : String) : Option (List String) := db.lookup name

/-- The scanner loop body of `loadExploitedPackages`: trim, skip empty and
`#` lines, match the regex, normalize the scoped name, insert. -/
def loadLinesInto (affected : Db) : List String → Db
  | [] => affected
  | l :: rest =>
    let line := goTrim l
    if line = "" || strStarts line "#" then loadLinesInto affected rest
    else
      match parseDbLine line with
      | some (name0, version) => loadLinesInto (dbInsert affected (normalizeScoped name0) version) rest
      | none => loadLinesInto affected rest

/-- The scanner loop body of `loadEmbeddedExploitedPackages` (a verbatim
clone of the loop in `loadExploitedPackages`). -/
def loadLinesIntoEmbedded (affected : Db) : List String → Db
  | [] => affected
  | l :: rest =>
    let line := goTrim l
    if line = "" || strStarts line "#" then loadLinesIntoEmbedded affected rest
    else
      match parseDbLine line with
      | some (name0, version) => loadLinesIntoEmbedded (dbInsert affected (normalizeScoped name0) version) rest
      | none => loadLinesIntoEmbedded affected rest

/-- `loadExploitedPackages` as a function of the text of the designated file
(the `os.Open`/`bufio.Scanner` I/O plumbing is abstracted to the text read). -/
def loadExploitedPackagesFromText (content : String) : Db :=
  loadLinesInto [] (goScanLines content)

/-- `loadEmbeddedExploitedPackages` as a function of the embedded text blob
(the `strings.NewReader`/`bufio.Scanner` plumbing is abstracted to the text). -/
def loadEmbeddedExploitedPackagesFromText (content : String) : Db :=
  loadLinesIntoEmbedded [] (goScanLines content)

/-! ## PathFilter (scanner.go `matchesGlobPattern` lines 417-439,
`shouldIncludePath` lines 374-402)

The fallback branch of `matchesGlobPattern` builds the regex
`"^" + QuoteMeta(pattern)` with `\*\*` replaced by `.*` and `\*` by `[^/]*`,
then anchors with `$`. After `QuoteMeta`, every character of the pattern other
than `*` is a literal, consecutive `**` becomes "any characters" and a single
`*` becomes "any non-separator characters"; the matcher below implements
exactly that token language (paths contain no newline, so `.` = any char). -/

/-- A token of the converted fallback regex. -/
inductive GTok where
  | lit (c : Char)
  | star
  | dstar
deriving DecidableEq

/-- Tokenize a glob pattern the way the two `ReplaceAll` calls do: leftmost
`**` pairs first, remaining `*` single, everything else literal. -/
def globTokens : List Char → List GTok
  | [] => []
  | '*' :: '*' :: rest => GTok.dstar :: globTokens rest
  | '*' :: rest => GTok.star :: globTokens rest
  | c :: rest => GTok.lit c :: globTokens rest

/-- Anchored matching of the token list against the path: `dstar` matches any
sequence, `star` any sequence without `'/'`, literals match themselves. -/
def globMatch : List GTok → List Char → Bool
  | [], [] => true
  | [], _ :: _ => false
  | GTok.lit _ :: _, [] => false
  | GTok.lit c :: ts, x :: xs => c == x && globMatch ts xs
  | GTok.star :: ts, [] => globMatch ts []
  | GTok.star :: ts, x :: xs =>
    globMatch ts (x :: xs) || (!(x == '/') && globMatch (GTok.star :: ts) xs)
  | GTok.dstar :: ts, [] => globMatch ts []
  | GTok.dstar :: ts, x :: xs =>
    globMatch ts (x :: xs) || globMatch (GTok.dstar :: ts) xs
termination_by ts cs => ts.length + cs.length

/-- The fallback `regexp.MatchString` call of `matchesGlobPattern`. -/
def globRegexMatch (path pattern : String) : Bool :=
  globMatch (globTokens pattern.data) path.data

/-- scanner.go `matchesGlobPattern` (lines 417-439): the hard-coded
`**/node_modules/**` case, then the `/**`-suffix case, then the `**/`-prefix
case, then the regex fallback. -/
def matchesGlobPattern (path pattern : String) : Bool :=
  if pattern = "**/node_modules/**" then strContains path "node_modules/"
  else if strEnds pattern "/**" then
    let pre := dropSuf pattern "/**"
    strStarts path (pre ++ "/") || path == dropSuf pre "/"
  else if strStarts pattern "**/" then
    let suf := dropPre pattern "**/"
    strContains path ("/" ++ suf) || strStarts path suf
  else globRegexMatch path pattern

/-- scanner.go `shouldIncludePath` (lines 374-402), stated over the already
relativized, slash-normalized path (the `filepath.Rel`/`ToSlash` step is OS
dependent and abstracted): excludes first and unconditional, then includes. -/
def shouldIncludePath (relPath : String) (includeGlobs excludeGlobs : List String) : Bool :=
  if excludeGlobs.any (fun pattern => matchesGlobPattern relPath pattern) then false
  else if 0 < includeGlobs.length then
    includeGlobs.any (fun pattern => matchesGlobPattern relPath pattern)
  else true

/-! ## ClassificationEngine (the verdict block duplicated verbatim inside
`parseYarnLock` (lines 558-587), `parseNPMLock`, `parsePNMLock` and
`parseBunLock`) -/

/-- scanner.go `Package` (lines 21-27): one per-package verdict. -/
structure Package where
  name : String
  version : String
  isAffected : Bool
  isWarning : Bool
  affectedVersions : List String
deriving DecidableEq, Repr

/-- The classification of one resolution pair against the database, exactly as
inlined in each parser: a missing name yields nothing; otherwise
`isAffected = affectedVersions[version]`,
`isWarning = !isAffected && len(affectedVersions) > 0`, and a `Package`
carrying the full version set is produced when either flag is set. -/
def checkPackage (affected : Db) (name version : String) : Option Package :=
  match dbLookup affected name with
  | none => none
  | some affectedVersions =>
    let isAffected := affectedVersions.contains version
    let isWarning := !isAffected && decide (0 < affectedVersions.length)
    if isAffected || isWarning then
      some { name := name, version := version, isAffected := isAffected,
             isWarning := isWarning, affectedVersions := affectedVersions }
    else none

/-! ## JSON value model (for `encoding/json.Unmarshal` into
`map[string]interface{}`) -/

/-- A decoded JSON value as seen through Go's `interface{}`. -/
inductive JVal where
  | jnull
  | jbool (b : Bool)
  | jnum (n : Int)
  | jstr (s : String)
  | jarr (elems : List JVal)
  | jobj (fields : List (String × JVal))

/-- Field access on a decoded JSON object (Go map indexing; `encoding/json`
produces no duplicate keys of interest here). -/
def jLookup (fields : List (String × JVal)) (key : String) : Option JVal :=
  fields.lookup key

/-! ## NPM parser (scanner.go `parseNPMLock` lines 615-677,
`extractPackageNameFromPath` lines 680-694) -/

/-- scanner.go `extractPackageNameFromPath`: strip one leading `/`, one leading
`node_modules/`, then scope-normalize. -/
def extractPackageNameFromPath (path : String) : String :=
  let cleanPath := dropPre path "/"
  let cleanPath := dropPre cleanPath "node_modules/"
  if cleanPath = "" then ""
  else if strContains cleanPath "/" && !(strStarts cleanPath "@") then "@" ++ cleanPath
  else cleanPath

/-- The verdict for one entry of the `packages` map in `parseNPMLock`: the
value must be a JSON object, the root key `""` is skipped, the name comes from
the key path, the version from the value's `version` string field. -/
def npmEntryVerdict (affected : Db) (key : String) (pkgData : JVal) : Option Package :=
  match pkgData with
  | JVal.jobj pkg =>
    if key = "" then none
    else
      let name := extractPackageNameFromPath key
      if name = "" then none
      else
        match jLookup pkg "version" with
        | some (JVal.jstr version) => checkPackage affected name version
        | _ => none
  | _ => none

/-- Sequential scan of the `packages` entries, accumulating the verdict list
and the two flags exactly as the Go loop does. -/
def npmEntriesScan (affected : Db) : List (String × JVal) → List Package × Bool × Bool
  | [] => ([], false, false)
  | (key, pkgData) :: rest =>
    let restR := npmEntriesScan affected rest
    match npmEntryVerdict affected key pkgData with
    | some p => (p :: restR.1, p.isAffected || restR.2.1, p.isWarning || restR.2.2)
    | none => restR

/-- scanner.go `parseNPMLock` (lines 615-677) as a function of the JSON
unmarshal outcome of the file bytes (`none` = `json.Unmarshal` error, which
includes any non-object top level): only the flat `packages` map is read. -/
def parseNPMLock (j : Option JVal) (affected : Db) : List Package × Bool × Bool :=
  match j with
  | some (JVal.jobj lockfileData) =>
    match jLookup lockfileData "packages" with
    | some (JVal.jobj packagesData) => npmEntriesScan affected packagesData
    | _ => ([], false, false)
  | _ => ([], false, false)

/-! ## Bun parser (scanner.go `parseBunLock` lines 765-837) -/

/-- The verdict for one entry of the `packages` map in `parseBunLock`: the
value must type-assert to a JSON object (array values fail the assertion and
are skipped), the root key `""` is skipped, the name is the key up to its last
`@`, and the version is read from the value's `version` string field. -/
def bunEntryVerdict (affected : Db) (key : String) (pkgData : JVal) : Option Package :=
  match pkgData with
  | JVal.jobj pkg =>
    if key = "" then none
    else
      match lastAtSplit key with
      | none => none
      | some (name0, _) =>
        match jLookup pkg "version" with
        | some (JVal.jstr version) => checkPackage affected (normalizeScoped name0) version
        | _ => none
  | _ => none

/-- Sequential scan of the bun `packages` entries. -/
def bunEntriesScan (affected : Db) : List (String × JVal) → List Package × Bool × Bool
  | [] => ([], false, false)
  | (key, pkgData) :: rest =>
    let restR := bunEntriesScan affected rest
    match bunEntryVerdict affected key pkgData with
    | some p => (p :: restR.1, p.isAffected || restR.2.1, p.isWarning || restR.2.2)
    | none => restR

/-- scanner.go `parseBunLock` (lines 765-837) as a function of the JSON
unmarshal outcome (`none` = unmarshal error, i.e. the binary format). -/
def parseBunLock (j : Option JVal) (affected : Db) : List Package × Bool × Bool :=
  match j with
  | some (JVal.jobj lockfileData) =>
    match jLookup lockfileData "packages" with
    | some (JVal.jobj packagesData) => bunEntriesScan affected packagesData
    | _ => ([], false, false)
  | _ => ([], false, false)

/-! ## Yarn parser (scanner.go `parseYarnLock` lines 511-588,
`extractPackageNameFromYarnHeader` lines 591-612) -/

/-- scanner.go `extractPackageNameFromYarnHeader`: first comma-separated
specifier, trimmed, cut before its last `@`, scope-normalized. -/
def extractPackageNameFromYarnHeader (header : String) : String :=
  match (splitOnChar ',' header.data).map String.mk with
  | [] => ""
  | firstPart :: _ =>
    let firstPart := goTrim firstPart
    match lastAtSplit firstPart with
    | none => ""
    | some (name, _) => normalizeScoped name

/-- The inner scan of `parseYarnLock` for the stanza's `version` line: walk
the following lines until one starts (after trimming) with `"`, returning the
value of the first `version`-prefixed line (trimmed of spaces and quotes), or
`""` when none is found. -/
def yarnFindVersion : List String → String
  | [] => ""
  | l :: rest =>
    let verLine := goTrim l
    if strStarts verLine "\"" then ""
    else if strStarts verLine "version" then goTrimSet (dropPre verLine "version") [' ', '"']
    else yarnFindVersion rest

/-- `foundPackages[name] = version`: overwrite the binding if present, append
otherwise (the Go `map[string]string` write, insertion-ordered). -/
def mapSet : List (String × String) → String → String → List (String × String)
  | [], n, v => [(n, v)]
  | (k, old) :: rest, n, v =>
    if k = n then (k, v) :: rest else (k, old) :: mapSet rest n v

/-- The outer line loop of `parseYarnLock` building `foundPackages`: a line
containing both `@` and `:` is a header; its name and the version found in the
following lines are recorded (the loop index only ever advances by one, so the
loop is a fold over the lines, each header looking ahead into its suffix). -/
def yarnCollect : List String → List (String × String) → List (String × String)
  | [], found => found
  | l :: rest, found =>
    let line := goTrim l
    if strContains line "@" && strContains line ":" then
      let header := goTrimSet line ['"', ':']
      let name := extractPackageNameFromYarnHeader header
      if name = "" then yarnCollect rest found
      else
        let version := yarnFindVersion rest
        if version = "" then yarnCollect rest found
        else yarnCollect rest (mapSet found name version)
    else yarnCollect rest found

/-- The final classification pass of `parseYarnLock` over `foundPackages`
(Go iterates the map; the embedding iterates in insertion order). -/
def classifyFound (affected : Db) : List (String × String) → List Package × Bool × Bool
  | [] => ([], false, false)
  | (name, version) :: rest =>
    let restR := classifyFound affected rest
    match checkPackage affected name version with
    | some p => (p :: restR.1, p.isAffected || restR.2.1, p.isWarning || restR.2.2)
    | none => restR

/-- scanner.go `parseYarnLock` (lines 511-588) as a function of the file
text: split on `"\n"`, collect `foundPackages`, classify each found pair. -/
def parseYarnLock (content : String) (affected : Db) : List Package × Bool × Bool :=
  classifyFound affected (yarnCollect (goSplitNL content) [])

/-! ## PNPM parser (scanner.go `parsePNMLock` lines 697-762) -/

/-- The per-line loop of `parsePNMLock`: a trimmed line starting with `/`,
containing `@` and ending with `:` is split at its last `@` into name and
version (no version-shape check), scope-normalized and classified. -/
def pnpmLinesScan (affected : Db) : List String → List Package × Bool × Bool
  | [] => ([], false, false)
  | l :: rest =>
    let restR := pnpmLinesScan affected rest
    let line := goTrim l
    if strStarts line "/" && strContains line "@" && strEnds line ":" then
      let entry := dropSuf (dropPre line "/") ":"
      match lastAtSplit entry with
      | none => restR
      | some (name0, version) =>
        match checkPackage affected (normalizeScoped name0) version with
        | some p => (p :: restR.1, p.isAffected || restR.2.1, p.isWarning || restR.2.2)
        | none => restR
    else restR

/-- scanner.go `parsePNMLock` (lines 697-762) as a function of the file text. -/
def parsePNMLock (content : String) (affected : Db) : List Package × Bool × Bool :=
  pnpmLinesScan affected (goSplitNL content)

/-! ## ScanOrchestrator (scanner.go `scanLockfiles` lines 442-466,
`scanLockfile` lines 469-508) -/

/-- scanner.go `Result` (lines 30-33): the retained per-lockfile result. -/
structure Result where
  lockFile : String
  packages : List Package
deriving DecidableEq, Repr

/-- The content of a located lockfile as consumed by its parser: raw text for
the line-based parsers, the `json.Unmarshal` outcome for the JSON parsers. -/
inductive FileContent where
  | text (s : String)
  | jsonData (j : Option JVal)

/-- One located lockfile: its path, its base filename (`filepath.Base`, kept
explicit since the path library is not modelled) and its content. -/
structure LockEntry where
  path : String
  base : String
  content : FileContent

/-- scanner.go `scanLockfile` (lines 469-508): dispatch on the base filename;
`bun.lockb` is recognized but skipped. The content-shape mismatch arms are
unreachable for inputs paired the way the Go code reads files. -/
def scanLockfile (base : String) (c : FileContent) (affected : Db) :
    List Package × Bool × Bool :=
  if base = "yarn.lock" then
    match c with
    | FileContent.text s => parseYarnLock s affected
    | _ => ([], false, false)
  else if base = "package-lock.json" || base = "npm-shrinkwrap.json" then
    match c with
    | FileContent.jsonData j => parseNPMLock j affected
    | _ => ([], false, false)
  else if base = "pnpm-lock.yaml" then
    match c with
    | FileContent.text s => parsePNMLock s affected
    | _ => ([], false, false)
  else if base = "bun.lock" || base = "bun.lockb" then
    if base = "bun.lockb" then ([], false, false)
    else
      match c with
      | FileContent.jsonData j => parseBunLock j affected
      | _ => ([], false, false)
  else ([], false, false)

/-- scanner.go `scanLockfiles` (lines 442-466): scan each file in order, keep
a `Result` only when the file contributed at least one verdict, and or-fold
the two flags. -/
def scanLockfiles (files : List LockEntry) (affected : Db) :
    List Result × Bool × Bool :=
  match files with
  | [] => ([], false, false)
  | f :: rest =>
    let r := scanLockfile f.base f.content affected
    let restR := scanLockfiles rest affected
    let results :=
      if 0 < r.1.length then { lockFile := f.path, packages := r.1 } :: restR.1
      else restR.1
    (results, r.2.1 || restR.2.1, r.2.2 || restR.2.2)

/-! ## Specification-side notions (used only in theorem statements) -/

/-- The segments of a slash-separated relative path (for the spec's
"path contains the segment X"). -/
def pathSegs (p : String) : List String :=
  (splitOnChar '/' p.data).map String.mk

/-- Helper: the two loader loops (verbatim clones in the Go source) agree. -/
theorem loadLines_eq (lines : List String) :
    ∀ db : Db, loadLinesInto db lines = loadLinesIntoEmbedded db lines := by
  induction lines with
  | nil => intro db; rfl
  | cons l rest ih =>
    intro db
    simp only [loadLinesInto, loadLinesIntoEmbedded]
    split
    · exact ih db
    · split
      · exact ih _
      · exact ih db

/-- C10: loading the compromised-package database from an external file and
via the embedded-list loader produce identical databases on equal input text:
the two loader functions are equivalent. -/
theorem loaders_agree_on_text (content : String) :
    loadExploitedPackagesFromText content = loadEmbeddedExploitedPackagesFromText content :=
  loadLines_eq (goScanLines content) []

/-- Witness for C10 at a concrete text. -/
theorem loaders_agree_on_text_witness :
    loadExploitedPackagesFromText "left-pad@1.3.0" =
      loadEmbeddedExploitedPackagesFromText "left-pad@1.3.0" :=
  loaders_agree_on_text "left-pad@1.3.0"

/-- C1 (code bug): `dist` is a segment of the path `a/dist/b`, yet the default
exclude pattern `**/dist/**` does not match it — `matchesGlobPattern` only
special-cases `**/node_modules/**`; every other `**/X/**` pattern falls into
the `/**`-suffix branch and is compared against the literal prefix `**/X`,
matching no real path. -/
theorem glob_dist_pattern_dead :
    (pathSegs "a/dist/b").contains "dist" = true ∧
    matchesGlobPattern "a/dist/b" "**/dist/**" = false :=
  ⟨rfl, rfl⟩

/-- C2 (code bug): a real bun.lock `packages` entry whose value is an array
(the shape the spec describes and the repository's bun fixtures use) is
skipped entirely by `parseBunLock`, which type-asserts each value to a JSON
object and reads the version from its `version` field instead of from the
key. With database `left-pad -> {1.3.0}` the compromised entry yields zero
verdicts. -/
theorem bun_array_entries_skipped :
    parseBunLock
      (some (JVal.jobj
        [("lockfileVersion", JVal.jnum 0),
         ("packages", JVal.jobj
           [("left-pad@1.3.0",
             JVal.jarr [JVal.jstr "left-pad@1.3.0", JVal.jobj [],
                        JVal.jstr "npm-left-pad-1.3.0"])])]))
      [("left-pad", ["1.3.0"])] = ([], false, false) :=
  rfl

/-- C3 (code bug): a lockfile consisting solely of a legacy nested
`dependencies` tree (with `left-pad@1.3.0` in the database, resolved at the
top level and with a nested dependency) produces zero resolution pairs:
`parseNPMLock` reads only the flat `packages` map and contains no code for the
legacy layout. -/
theorem npm_legacy_deps_ignored :
    parseNPMLock
      (some (JVal.jobj
        [("dependencies", JVal.jobj
          [("left-pad", JVal.jobj
            [("version", JVal.jstr "1.3.0"),
             ("dependencies", JVal.jobj
               [("nested-dep", JVal.jobj [("version", JVal.jstr "2.0.0")])])])])]))
      [("left-pad", ["1.3.0"]), ("nested-dep", ["2.0.0"])] = ([], false, false) :=
  rfl

/-- C4 (code bug): the pnpm v5 line `/left-pad/1.3.0:` (the `/<name>/<version>:`
shape) yields no pair even though `left-pad@1.3.0` is in the database, because
`parsePNMLock` requires an `@` in the line; and the line `/foo@bar:` yields the
pair `(foo, bar)` even though `bar` is not a 3-part dotted-numeric version,
because no version-shape check is performed. -/
theorem pnpm_shape_and_version_divergence :
    parsePNMLock "/left-pad/1.3.0:" [("left-pad", ["1.3.0"])] = ([], false, false) ∧
    parsePNMLock "/foo@bar:" [("foo", ["9.9.9"])] =
      ([{ name := "foo", version := "bar", isAffected := false, isWarning := true,
          affectedVersions := ["9.9.9"] }], false, true) :=
  ⟨rfl, rfl⟩

/-- C7 (code bug): a yarn.lock resolving `a` to both `1.0.0` (compromised) and
`2.0.0` via two stanzas yields a single verdict for the last stanza only:
`parseYarnLock` stores stanza results in a name-to-version map, so the second
stanza overwrites the first and the compromised resolution `a@1.0.0` is
silently dropped (no affected flag is raised). -/
theorem yarn_duplicate_name_collapsed :
    parseYarnLock "a@^1:\n  version \"1.0.0\"\n\na@^2:\n  version \"2.0.0\"\n"
      [("a", ["1.0.0"])] =
      ([{ name := "a", version := "2.0.0", isAffected := false, isWarning := true,
          affectedVersions := ["1.0.0"] }], false, true) :=
  rfl

/-- C5: one verdict per pair whose name is a database key — affected when the
version is in the key's set, a warning otherwise, always carrying the full
version set — and no verdict when the name is absent. (The nonempty-set
hypothesis is the spec's CompromisedDatabase invariant, maintained by both
loaders.) -/
theorem classification_per_pair (db : Db) (n v : String) :
    (∀ vs, dbLookup db n = some vs → vs ≠ [] →
      checkPackage db n v =
        some { name := n, version := v, isAffected := vs.contains v,
               isWarning := !(vs.contains v), affectedVersions := vs }) ∧
    (dbLookup db n = none → checkPackage db n v = none) := by
  constructor
  · intro vs hvs hne
    have hlen : decide (0 < vs.length) = true := by
      simp [List.length_pos, hne]
    unfold checkPackage
    rw [hvs]
    cases hc : vs.contains v with
    | false =>
      have hm : v ∉ vs := by simpa using hc
      simp [hc, hlen, hm]
    | true =>
      have hm : v ∈ vs := by simpa using hc
      simp [hc, hm]
  · intro h
    unfold checkPackage
    rw [h]

/-- Witness for C5: both branches at concrete inputs. -/
theorem classification_per_pair_witness :
    checkPackage [("left-pad", ["1.3.0"])] "left-pad" "1.3.0" =
      some { name := "left-pad"
             version := "1.3.0"
             isAffected := (["1.3.0"] : List String).contains "1.3.0"
             isWarning := !((["1.3.0"] : List String).contains "1.3.0")
             affectedVersions := ["1.3.0"] } ∧
    checkPackage [("left-pad", ["1.3.0"])] "right-pad" "1.0.0" = none :=
  ⟨(classification_per_pair [("left-pad", ["1.3.0"])] "left-pad" "1.3.0").1
      ["1.3.0"] rfl (by decide),
   (classification_per_pair [("left-pad", ["1.3.0"])] "right-pad" "1.0.0").2 rfl⟩

/-- C8: the path filter evaluates excludes first and unconditionally
(no include can override an exclude match); with no exclude match and a
non-empty include list it accepts exactly when some include matches; with no
exclude match and an empty include list it accepts. -/
theorem shouldIncludePath_excludeFirst (rel : String) (inc exc : List String) :
    shouldIncludePath rel inc exc = true ↔
      ((∀ g ∈ exc, matchesGlobPattern rel g = false) ∧
       (inc = [] ∨ ∃ g ∈ inc, matchesGlobPattern rel g = true)) := by
  unfold shouldIncludePath
  by_cases hx : exc.any (fun pattern => matchesGlobPattern rel pattern) = true
  · rw [if_pos hx]
    obtain ⟨g, hg, hm⟩ := List.any_eq_true.mp hx
    constructor
    · intro h
      exact absurd h (by simp)
    · rintro ⟨hall, -⟩
      rw [hall g hg] at hm
      cases hm
  · have hxf : exc.any (fun pattern => matchesGlobPattern rel pattern) = false :=
      Bool.eq_false_iff.mpr hx
    have hall : ∀ g ∈ exc, matchesGlobPattern rel g = false := by
      intro g hg
      simpa using List.any_eq_false.mp hxf g hg
    rw [if_neg hx]
    cases inc with
    | nil =>
      rw [if_neg (by simp)]
      exact ⟨fun _ => ⟨hall, Or.inl rfl⟩, fun _ => rfl⟩
    | cons a l =>
      rw [if_pos (by simp : 0 < (a :: l).length)]
      simp only [List.any_eq_true]
      constructor
      · rintro ⟨g, hg, hm⟩
        exact ⟨hall, Or.inr ⟨g, hg, hm⟩⟩
      · rintro ⟨-, h | ⟨g, hg, hm⟩⟩
        · exact absurd h (by simp)
        · exact ⟨g, hg, hm⟩

/-- Witness for C8 at concrete inputs: an include match accepts. -/
theorem shouldIncludePath_excludeFirst_witness :
    shouldIncludePath "src/app.js" ["src/**"] [] = true :=
  (shouldIncludePath_excludeFirst "src/app.js" ["src/**"] []).mpr
    ⟨fun g hg => absurd hg (List.not_mem_nil g),
     Or.inr ⟨"src/**", List.mem_singleton.mpr rfl, rfl⟩⟩

/-- C9 counterexample: on corrupt content (a `json.Unmarshal` failure, e.g.
truncated JSON) `parseNPMLock` returns exactly the same value as for a
successfully parsed empty lockfile — its result type carries no failure
indicator of any kind, contradicting the claim that one is returned. -/
theorem npm_malformed_indistinguishable :
    parseNPMLock none [("left-pad", ["1.3.0"])] =
      parseNPMLock (some (JVal.jobj [("packages", JVal.jobj [])]))
        [("left-pad", ["1.3.0"])] :=
  rfl

/-- Helper: the one-step unfolding of `scanLockfiles` on a cons cell. -/
theorem scanLockfiles_cons (f : LockEntry) (rest : List LockEntry) (db : Db) :
    scanLockfiles (f :: rest) db =
      ((if 0 < (scanLockfile f.base f.content db).1.length then
          { lockFile := f.path, packages := (scanLockfile f.base f.content db).1 } ::
            (scanLockfiles rest db).1
        else (scanLockfiles rest db).1),
       (scanLockfile f.base f.content db).2.1 || (scanLockfiles rest db).2.1,
       (scanLockfile f.base f.content db).2.2 || (scanLockfiles rest db).2.2) :=
  rfl

/-- Helper: a malformed `package-lock.json` entry contributes nothing to the
orchestrator's scan of a file list. -/
theorem scan_cons_malformed (p : String) (post : List LockEntry) (db : Db) :
    scanLockfiles
      ({ path := p, base := "package-lock.json",
         content := FileContent.jsonData none } :: post) db =
      scanLockfiles post db := by
  have h : scanLockfile "package-lock.json" (FileContent.jsonData none) db =
      ([], false, false) := rfl
  simp [scanLockfiles, h]

/-- C9 (amended): on corrupt content the NPM parser returns zero resolution
pairs (with no failure indicator), and the orchestrator scans the remaining
files unchanged, with the corrupt file contributing no result. -/
theorem scan_skips_malformed_npm (db : Db) (pre post : List LockEntry) (p : String) :
    parseNPMLock none db = ([], false, false) ∧
    scanLockfiles
      (pre ++ { path := p, base := "package-lock.json",
                content := FileContent.jsonData none } :: post) db =
      scanLockfiles (pre ++ post) db := by
  refine ⟨rfl, ?_⟩
  induction pre with
  | nil => simpa using scan_cons_malformed p post db
  | cons a pre ih =>
    have h1 : (a :: pre) ++
        ({ path := p, base := "package-lock.json",
           content := FileContent.jsonData none } :: post) =
        a :: (pre ++ ({ path := p, base := "package-lock.json",
                        content := FileContent.jsonData none } :: post)) := rfl
    have h2 : (a :: pre) ++ post = a :: (pre ++ post) := rfl
    rw [h1, h2, scanLockfiles_cons, scanLockfiles_cons, ih]

/-- Witness for C9 at a concrete file list. -/
theorem scan_skips_malformed_npm_witness :
    scanLockfiles
      [{ path := "x/package-lock.json", base := "package-lock.json",
         content := FileContent.jsonData none }] [("left-pad", ["1.3.0"])] =
      ([], false, false) := by
  have h := scan_skips_malformed_npm [("left-pad", ["1.3.0"])] [] []
    "x/package-lock.json"
  simpa using h.2

/-! ### The loader's version grammar (C6) -/

end SHS
